import Mathlib

/-!
Shallow embedding of `pkg/eth_observer/eth_observer.go` (and the in-memory
transactions store of `pkg/memory_store`) from the `ethereum_parser`
repository, together with theorems settling the spec claims about it.

Conventions of the embedding:
- Go `int`/`int64` become `Int` (the claims never exercise machine overflow
  of the watermark / block counters; where overflow of `strconv.ParseInt`
  matters, the 64-bit range check is explicit in the parser model).
- Go `map[T]struct{}` sets become `Finset`.
- The in-memory `TransactionsStore` (`memStore`: `map[string][]Transaction`
  with append semantics) becomes a function `String → List Transaction`;
  an absent key is the empty list, exactly as a Go map read yields nil.
- Network effects are parameters: a function that performs an RPC call takes
  the decoded response (or `none`/`Option` for a transport failure) as an
  argument, and the pure logic the Go function applies to it is embedded.
- A Go runtime panic (out-of-range string slicing) is a distinguished
  constructor, not an `Except` error, so that "returns an error" and
  "crashes" remain distinguishable.
-/

/-- One on-chain transaction (struct `Transaction`, eth_observer.go lines
27-48).  All fields are hex-encoded strings as in the source; `AccessList`
is `[]interface{}` in Go, opaque to every function of the package, and is
modelled by an opaque-to-the-logic `List Unit`.  Defaults are the Go zero
values. -/
structure Transaction where
  BlockHash : String := ""
  BlockNumber : String := ""
  From : String := ""
  Gas : String := ""
  GasPrice : String := ""
  MaxFeePerGas : String := ""
  MaxPriorityFeePerGas : String := ""
  Hash : String := ""
  Input : String := ""
  Nonce : String := ""
  To : String := ""
  TransactionIndex : String := ""
  Value : String := ""
  Type' : String := ""
  AccessList : List Unit := []
  ChainId : String := ""
  V : String := ""
  R : String := ""
  S : String := ""
  YParity : String := ""
  deriving DecidableEq, Repr

/-- Protocol-level error object (struct `EthErrorStruct`, lines 60-63). -/
structure EthErrorStruct where
  code : Int
  message : String
  deriving DecidableEq, Repr

/-- Decoded JSON-RPC response (struct `EthResponseStruct`, lines 64-69).
`result` stays raw (a string of JSON), as `json.RawMessage` does. -/
structure EthResponseStruct where
  jsonrpc : String := ""
  result : String := ""
  error : Option EthErrorStruct := none
  id : Int := 0
  deriving DecidableEq, Repr

/-- The error outcomes of `QueryEthClient` after a response has been decoded
(lines 122-127): the protocol-level error and the correlation-ID mismatch. -/
inductive QueryError where
  | rpcError (code : Int) (message : String)
  | idMismatch
  deriving DecidableEq, Repr

/-- The response-validation logic of `QueryEthClient` (lines 122-129): after
unmarshalling, first the protocol-level `Error` field is checked and turned
into an error; only then is the response ID compared with the request ID.
The transport/decol failures of lines 100-121 happen before this logic and
are outside it. -/
def checkResponse (requestId : Int) (response : EthResponseStruct) :
    Except QueryError EthResponseStruct :=
  match response.error with
  | some e => .error (.rpcError e.code e.message)
  | none =>
    if response.id ≠ requestId then .error .idMismatch
    else .ok response

/-- Observer state (struct `EthereumObserver`, lines 76-83).  The
`sync.Mutex` has no data content and is modelled separately (see the
lock-discipline model below); `transactionsStore` is the in-memory store's
contents. -/
structure EthereumObserver where
  endpoint : String
  latestBlock : Int
  blocksToRead : Finset Int
  subscribedAddress : Finset String
  transactionsStore : String → List Transaction

/-- `NewEthereumObserver` (lines 85-93). -/
def NewEthereumObserver (endpoint : String)
    (txStore : String → List Transaction) : EthereumObserver :=
  { endpoint := endpoint
    latestBlock := 0
    blocksToRead := ∅
    subscribedAddress := ∅
    transactionsStore := txStore }

/-- `memStore.AddTransactions` (memory_store.go): appends the batch to the
existing list for the address. -/
def AddTransactions (store : String → List Transaction) (address : String)
    (transactions : List Transaction) : String → List Transaction :=
  fun a => if a = address then store a ++ transactions else store a

/-- `collectSubscribedAddresses` (lines 187-198): for each transaction, for
each of `[tx.From, tx.To]` in that order, if the address is subscribed the
transaction is appended to that address's list.  A Go map key is present
exactly when its list is nonempty (only nonempty appends occur), so the
result map is modelled as a total function with `[]` for absent keys. -/
def collectSubscribedAddresses (e : EthereumObserver)
    (transactions : List Transaction) : String → List Transaction :=
  transactions.foldl
    (fun m transaction =>
      [transaction.From, transaction.To].foldl
        (fun m address =>
          if address ∈ e.subscribedAddress then
            fun a => if a = address then m a ++ [transaction] else m a
          else m)
        m)
    (fun _ => [])

/-- `addBlockToRead` (lines 201-205): inserts the block number into the
pending set (under the lock). -/
def addBlockToRead (e : EthereumObserver) (blockNum : Int) : EthereumObserver :=
  { e with blocksToRead := insert blockNum e.blocksToRead }

/-- `removeBlockToRead` (lines 271-275). -/
def removeBlockToRead (e : EthereumObserver) (blockNum : Int) : EthereumObserver :=
  { e with blocksToRead := e.blocksToRead.erase blockNum }

/-- `updateLatestBlock` (lines 235-244): raises the watermark when the block
number exceeds it; returns whether it was raised. -/
def updateLatestBlock (e : EthereumObserver) (blockNum : Int) :
    Bool × EthereumObserver :=
  if blockNum > e.latestBlock then
    (true, { e with latestBlock := blockNum })
  else (false, e)

/-- `UpdateTransactions` (lines 211-230), with the result of the
`GetBlockByNumber` network call passed as `fetch` (`none` is any fetch
error).  On error the block is re-inserted into the pending set and nothing
else changes; on success the filtered transactions are appended to the store
per address and the watermark is updated.  The Go loop over the result map
touches each key once, so the store update is pointwise append of that
key's collected list. -/
def UpdateTransactions (e : EthereumObserver) (blockNum : Int)
    (fetch : Option (List Transaction)) : EthereumObserver :=
  match fetch with
  | none => addBlockToRead e blockNum
  | some transactions =>
    let transactionsByAddress := collectSubscribedAddresses e transactions
    let e' := { e with transactionsStore :=
      fun address => e.transactionsStore address ++ transactionsByAddress address }
    (updateLatestBlock e' blockNum).2

/-- `strings.ToLower`: maps every character to its lowercase form.  (Go
lowercases each rune; on the ASCII addresses this package handles this is
the per-character `Char.toLower` map.) -/
def goToLower (s : String) : String :=
  ⟨s.data.map Char.toLower⟩

/-- `Subscribe` (lines 249-259): lowercases the address (EIP55 checksum
casing is stripped) and inserts it, returning whether it was newly added. -/
def Subscribe (e : EthereumObserver) (address : String) :
    Bool × EthereumObserver :=
  if goToLower address ∈ e.subscribedAddress then
    (false, e)
  else
    (true, { e with subscribedAddress := insert (goToLower address) e.subscribedAddress })

/-- `GetCurrentBlock` (lines 262-264): returns `latestBlock` (without taking
the lock; see the lock-discipline model below). -/
def GetCurrentBlock (e : EthereumObserver) : Int :=
  e.latestBlock

/-- `GetTransactions` (lines 267-269). -/
def GetTransactions (e : EthereumObserver) (address : String) : List Transaction :=
  e.transactionsStore (goToLower address)

/-! ### Hex block-number formatting and parsing

`UpdateTransactions` formats a block number with `fmt.Sprintf("0x%x", n)`
(line 215); `GetBlockNumber` and `ObserveChain` parse hex strings with
`strconv.ParseInt(s, 16, 64)` (lines 153, 292, 308).  Both are embedded at
the character-list level (Go slices strings by bytes; every string these
functions handle is ASCII, where bytes and characters coincide). -/

/-- The value of one hex digit as `strconv.ParseInt` base 16 accepts it:
`0-9`, `a-f` and `A-F`. -/
def hexDigitVal (c : Char) : Option Nat :=
  if '0' ≤ c ∧ c ≤ '9' then some (c.toNat - 48)
  else if 'a' ≤ c ∧ c ≤ 'f' then some (c.toNat - 87)
  else if 'A' ≤ c ∧ c ≤ 'F' then some (c.toNat - 55)
  else none

/-- The lowercase hex digit `fmt`'s `%x` verb emits for a value below 16. -/
def hexDigitChar (d : Nat) : Char :=
  if d < 10 then Char.ofNat (48 + d) else Char.ofNat (87 + d)

/-- The digits (most significant first, no leading zeros, `"0"` for zero)
that `%x` emits for a non-negative value. -/
def toHexDigits (n : Nat) : List Char :=
  if _h : n < 16 then [hexDigitChar n]
  else toHexDigits (n / 16) ++ [hexDigitChar (n % 16)]
decreasing_by exact Nat.div_lt_self (by omega) (by omega)

/-- `fmt.Sprintf("0x%x", n)` for a (signed) integer: the literal `0x`
followed by the `%x` rendering, which for a negative value is a minus sign
and the magnitude's digits. -/
def formatBlockNumber (n : Int) : String :=
  if n < 0 then "0x" ++ ("-" ++ ⟨toHexDigits (-n).toNat⟩)
  else "0x" ++ (⟨toHexDigits n.toNat⟩ : String)

/-- The digits-only part of `strconv.ParseUint(s, 16, _)`: `none` on an
empty string or on any non-hex-digit character; otherwise the base-16
value. -/
def parseHexNat (cs : List Char) : Option Nat :=
  match cs with
  | [] => none
  | _ =>
    cs.foldl
      (fun acc c => acc.bind fun n => (hexDigitVal c).map fun d => n * 16 + d)
      (some 0)

/-- `strconv.ParseInt(s, 16, 64)`: an optional leading sign, then hex
digits; `none` on empty digits, an invalid digit, or a value outside the
`int64` range (Go returns `ErrRange` there). -/
def parseInt64Base16 (cs : List Char) : Option Int :=
  match cs with
  | [] => none
  | c :: rest =>
    if c = '+' then
      (parseHexNat rest).bind fun n =>
        if n ≤ 2 ^ 63 - 1 then some (n : Int) else none
    else if c = '-' then
      (parseHexNat rest).bind fun n =>
        if n ≤ 2 ^ 63 then some (-(n : Int)) else none
    else
      (parseHexNat (c :: rest)).bind fun n =>
        if n ≤ 2 ^ 63 - 1 then some (n : Int) else none

/-- The parse `ObserveChain` applies to a fetched block-number string:
`strconv.ParseInt(blockNum[2:], 16, 64)` (lines 292 and 308) — drop the
first two bytes, then parse base 16. -/
def parseBlockNumberTail (s : String) : Option Int :=
  parseInt64Base16 (s.data.drop 2)

/-! ### `GetBlockNumber` result validation -/

/-- The three possible outcomes of the validation `GetBlockNumber` applies
to the decoded result string (lines 150-158): a Go runtime panic is kept
distinct from a returned error. -/
inductive BlockNumOutcome where
  | panicked
  | errored
  | ok (s : String)
  deriving DecidableEq, Repr

/-- The validation `GetBlockNumber` (lines 145-158) applies once the RPC
result has been unmarshalled into the string `blockNum`: `blockNum[:2]`
(which panics when the string is shorter than two bytes) must equal `"0x"`,
and `blockNum[2:]` must satisfy `strconv.ParseInt(·, 16, 64)`; on success
the original string is returned. -/
def getBlockNumberValidate (blockNum : String) : BlockNumOutcome :=
  if blockNum.data.length < 2 then .panicked
  else if blockNum.data.take 2 ≠ ['0', 'x'] then .errored
  else
    match parseInt64Base16 (blockNum.data.drop 2) with
    | none => .errored
    | some _ => .ok blockNum

/-! ### The `ObserveChain` loop (lines 282-331) -/

/-- The state of the seed loop of `ObserveChain` (lines 283-298).
`blocknum` is the `int64` declared by `var blocknum int64` at line 284 — the
variable the loop guard `blocknum == 0` tests.  The statement
`blocknum, err := strconv.ParseInt(blockNum[2:], 16, 64)` at line 292 uses
`:=` inside the loop body, so it declares a NEW inner `blocknum` that
shadows the outer one; the outer `blocknum` is never assigned. -/
structure SeedState where
  blocknum : Int
  observer : EthereumObserver

/-- One iteration of the seed loop, given the result of its
`GetBlockNumber` call (`none` for an error).  On an error, or on a parse
failure of `blockNum[2:]`, the iteration is a no-op (`continue`).  On
success the parsed value is bound to the shadowing inner variable and
passed to `updateLatestBlock`; the outer `blocknum` is left untouched, as
in the source. -/
def seedIter (s : SeedState) (resp : Option String) : SeedState :=
  match resp with
  | none => s
  | some blockNum =>
    match parseInt64Base16 (blockNum.data.drop 2) with
    | none => s
    | some inner =>
      { s with observer := (updateLatestBlock s.observer inner).2 }

/-- The seed loop run over a finite prefix of the response sequence,
starting from `var blocknum int64` (zero value). -/
def seedRun (e : EthereumObserver) (resps : List (Option String)) : SeedState :=
  resps.foldl seedIter { blocknum := 0, observer := e }

/-- The block numbers the catch-up gap scan of `ObserveChain` visits
(lines 314-317): `for i := e.latestBlock + 1; i < h; i++` with `h` the
freshly parsed head. -/
def gapBlocks (watermark h : Int) : List Int :=
  (List.range (h - (watermark + 1)).toNat).map fun k : Nat => watermark + 1 + (k : Int)

/-- The gap scan itself: `addBlockToRead` on each visited number. -/
def addGapBlocks (e : EthereumObserver) (h : Int) : EthereumObserver :=
  (gapBlocks e.latestBlock h).foldl addBlockToRead e

/-- A sequence of `UpdateTransactions` calls, each with its block number and
the outcome of its block fetch. -/
def runUpdates (e : EthereumObserver)
    (calls : List (Int × Option (List Transaction))) : EthereumObserver :=
  calls.foldl (fun e c => UpdateTransactions e c.1 c.2) e

/-- What one transaction contributes to the collected list of a query
address: the appends the two iterations of the inner loop of
`collectSubscribedAddresses` perform for it, in their source order
(`From` first, then `To`). -/
def txContribution (e : EthereumObserver) (addr : String)
    (tx : Transaction) : List Transaction :=
  (if addr = tx.From ∧ tx.From ∈ e.subscribedAddress then [tx] else []) ++
  (if addr = tx.To ∧ tx.To ∈ e.subscribedAddress then [tx] else [])

/-! ### Lock-discipline model

The observer guards its state with the single mutex `e.mux`.  Which field
accesses happen between `e.mux.Lock()` and the deferred `e.mux.Unlock()` is
a static property of each function body; the lists below record, for each
function of the source, its accesses to the three lock-guarded fields
(`latestBlock`, `blocksToRead`, `subscribedAddress`) in source order,
each tagged with whether the mutex is held at that statement. -/

/-- The three fields of `EthereumObserver` the spec says the lock guards. -/
inductive ObserverField where
  | watermark
  | pending
  | subscriptions
  deriving DecidableEq, Repr

/-- Read or write. -/
inductive AccessKind where
  | read
  | write
  deriving DecidableEq, Repr

/-- One access to a guarded field, tagged with whether `e.mux` is held. -/
structure FieldAccess where
  kind : AccessKind
  field : ObserverField
  underLock : Bool
  deriving DecidableEq, Repr

/-- `addBlockToRead` (lines 201-205): locks, then writes the pending set. -/
def addBlockToReadAccesses : List FieldAccess :=
  [⟨.write, .pending, true⟩]

/-- `removeBlockToRead` (lines 271-275): locks, then writes the pending
set. -/
def removeBlockToReadAccesses : List FieldAccess :=
  [⟨.write, .pending, true⟩]

/-- `updateLatestBlock` (lines 235-244): locks, compares against the
watermark and conditionally writes it. -/
def updateLatestBlockAccesses : List FieldAccess :=
  [⟨.read, .watermark, true⟩, ⟨.write, .watermark, true⟩]

/-- `Subscribe` (lines 249-259): locks, tests membership and inserts. -/
def SubscribeAccesses : List FieldAccess :=
  [⟨.read, .subscriptions, true⟩, ⟨.write, .subscriptions, true⟩]

/-- `GetCurrentBlock` (lines 262-264): returns `e.latestBlock` with no
`e.mux.Lock()` in the function body. -/
def GetCurrentBlockAccesses : List FieldAccess :=
  [⟨.read, .watermark, false⟩]

/-- `collectSubscribedAddresses` (lines 187-198): reads the subscription set
(membership tests) with no lock; its only caller `UpdateTransactions` does
not hold the lock either. -/
def collectSubscribedAddressesAccesses : List FieldAccess :=
  [⟨.read, .subscriptions, false⟩]

/-- The accesses the body of `ObserveChain` itself performs (lines 315, 320
and 327): reading `e.latestBlock` to start the gap scan, ranging over
`e.blocksToRead` to drain it, and reading `len(e.blocksToRead)` for the
sleep decision — none under the lock (the locked accesses of the helpers it
calls are listed with those helpers). -/
def ObserveChainAccesses : List FieldAccess :=
  [⟨.read, .watermark, false⟩, ⟨.read, .pending, false⟩,
   ⟨.read, .pending, false⟩]

/-- Every access of the package to the three guarded fields. -/
def allObserverAccesses : List FieldAccess :=
  addBlockToReadAccesses ++ removeBlockToReadAccesses ++
  updateLatestBlockAccesses ++ SubscribeAccesses ++
  GetCurrentBlockAccesses ++ collectSubscribedAddressesAccesses ++
  ObserveChainAccesses

/-! ### Concrete fixtures shared by witnesses -/

/-- A transaction whose sender equals its receiver. -/
def txSelf : Transaction := { From := "0xa", To := "0xa" }

/-- An observer subscribed to that single address. -/
def eSelf : EthereumObserver :=
  { NewEthereumObserver "https://cloudflare-eth.com" (fun _ => []) with
    subscribedAddress := {"0xa"} }

/-- A freshly constructed observer with an empty in-memory store, as
`main.go` builds one. -/
def e0 : EthereumObserver := NewEthereumObserver "https://cloudflare-eth.com" fun _ => []

/-! ## Claims -/

/-- Claim C10: `QueryEthClient` checks the protocol-level error field before
the correlation ID: a response carrying a non-null error object yields the
protocol error (its code and message) even when the ID also mismatches, and
the ID-mismatch error is returned only for responses whose error field is
absent. -/
theorem checkResponse_error_before_id :
    (∀ (requestId : Int) (resp : EthResponseStruct) (err : EthErrorStruct),
       resp.error = some err →
       checkResponse requestId resp = .error (.rpcError err.code err.message)) ∧
    (∀ (requestId : Int) (resp : EthResponseStruct),
       checkResponse requestId resp = .error .idMismatch →
       resp.error = none ∧ resp.id ≠ requestId) := by
  constructor
  · intro requestId resp err herr
    simp [checkResponse, herr]
  · intro requestId resp h
    unfold checkResponse at h
    cases herr : resp.error with
    | some e => simp [herr] at h
    | none =>
      simp only [herr] at h
      by_cases hid : resp.id ≠ requestId
      · exact ⟨rfl, hid⟩
      · simp [hid] at h

/-- Witness for C10 at the ID-mismatch test fixture of the repository's
tests, with an error object added: the protocol error wins. -/
theorem checkResponse_error_before_id_witness :
    checkResponse 0
        { jsonrpc := "2.0", result := "",
          error := some { code := -32601, message := "Method not found" },
          id := 1 } =
      .error (.rpcError (-32601) "Method not found") :=
  checkResponse_error_before_id.1 0
    { jsonrpc := "2.0", result := "",
      error := some { code := -32601, message := "Method not found" },
      id := 1 }
    { code := -32601, message := "Method not found" } rfl

/-- Claim C4: when the block fetch inside `UpdateTransactions` fails, the
transactions store and the watermark are unchanged and the block number is
re-inserted into the pending set — the re-enqueue is the only state
change. -/
theorem updateTransactions_fetch_failure
    (e : EthereumObserver) (blockNum : Int) :
    (UpdateTransactions e blockNum none).transactionsStore = e.transactionsStore ∧
    (UpdateTransactions e blockNum none).latestBlock = e.latestBlock ∧
    (UpdateTransactions e blockNum none).blocksToRead =
      insert blockNum e.blocksToRead ∧
    UpdateTransactions e blockNum none =
      { e with blocksToRead := insert blockNum e.blocksToRead } :=
  ⟨rfl, rfl, rfl, rfl⟩

/-- Claim C7: `Subscribe` is idempotent — when the (lowercased) address is
not yet subscribed, the first call returns `true` and inserts the lowercased
address, and a second call with the same address in any casing returns
`false`, leaves the whole observer state unchanged, and does not grow the
subscription set. -/
theorem subscribe_idempotent (e : EthereumObserver) (a b : String)
    (hfresh : goToLower a ∉ e.subscribedAddress)
    (hsame : goToLower b = goToLower a) :
    (Subscribe e a).1 = true ∧
    (Subscribe e a).2.subscribedAddress =
      insert (goToLower a) e.subscribedAddress ∧
    (Subscribe (Subscribe e a).2 b).1 = false ∧
    (Subscribe (Subscribe e a).2 b).2 = (Subscribe e a).2 ∧
    (Subscribe (Subscribe e a).2 b).2.subscribedAddress.card =
      (Subscribe e a).2.subscribedAddress.card := by
  have h1 : Subscribe e a =
      (true, { e with subscribedAddress := insert (goToLower a) e.subscribedAddress }) := by
    simp [Subscribe, hfresh]
  have h2 : goToLower b ∈ insert (goToLower a) e.subscribedAddress := by
    rw [hsame]; exact Finset.mem_insert_self _ _
  rw [h1]
  simp [Subscribe, h2]

/-- Witness for C7: subscribing `"0xAB"` to a fresh observer succeeds, and
re-subscribing as `"0xaB"` is refused without changing the state. -/
theorem subscribe_idempotent_witness :
    (Subscribe e0 "0xAB").1 = true ∧
    (Subscribe e0 "0xAB").2.subscribedAddress =
      insert (goToLower "0xAB") e0.subscribedAddress ∧
    (Subscribe (Subscribe e0 "0xAB").2 "0xaB").1 = false ∧
    (Subscribe (Subscribe e0 "0xAB").2 "0xaB").2 = (Subscribe e0 "0xAB").2 ∧
    (Subscribe (Subscribe e0 "0xAB").2 "0xaB").2.subscribedAddress.card =
      (Subscribe e0 "0xAB").2.subscribedAddress.card :=
  subscribe_idempotent e0 "0xAB" "0xaB" (by decide) (by decide)

/-! ### Hex round-trip lemmas -/

lemma hexDigitVal_hexDigitChar (d : Nat) (hd : d < 16) :
    hexDigitVal (hexDigitChar d) = some d := by
  interval_cases d <;> decide

lemma hexDigitChar_not_sign (d : Nat) (hd : d < 16) :
    hexDigitChar d ≠ '+' ∧ hexDigitChar d ≠ '-' := by
  interval_cases d <;> decide

lemma foldl_hexStep_toHexDigits (n : Nat) : ∀ a : Nat,
    (toHexDigits n).foldl
      (fun acc c => acc.bind fun m => (hexDigitVal c).map fun d => m * 16 + d)
      (some a) = some (a * 16 ^ (toHexDigits n).length + n) := by
  induction n using Nat.strong_induction_on with
  | _ n ih =>
    intro a
    rw [toHexDigits]
    by_cases h : n < 16
    · simp [h, List.foldl, hexDigitVal_hexDigitChar n h]
    · have hlt : n / 16 < n := Nat.div_lt_self (by omega) (by omega)
      simp only [h, dite_false, List.foldl_append, ih (n / 16) hlt a,
        List.length_append, List.length_singleton, List.foldl]
      rw [hexDigitVal_hexDigitChar (n % 16) (Nat.mod_lt _ (by omega))]
      simp only [Option.some_bind, Option.map_some']
      congr 1
      rw [pow_succ]
      generalize 16 ^ (toHexDigits (n / 16)).length = K
      have hres : a * (K * 16) = a * K * 16 := by ring
      rw [hres]
      generalize a * K = M
      omega

lemma toHexDigits_ne_nil (n : Nat) : toHexDigits n ≠ [] := by
  rw [toHexDigits]
  by_cases h : n < 16 <;> simp [h]

lemma toHexDigits_mem (n : Nat) :
    ∀ c ∈ toHexDigits n, ∃ d, d < 16 ∧ c = hexDigitChar d := by
  induction n using Nat.strong_induction_on with
  | _ n ih =>
    intro c hc
    rw [toHexDigits] at hc
    by_cases h : n < 16
    · simp [h] at hc
      exact ⟨n, h, hc⟩
    · simp only [h, dite_false, List.mem_append, List.mem_singleton] at hc
      rcases hc with hc | hc
      · exact ih (n / 16) (Nat.div_lt_self (by omega) (by omega)) c hc
      · exact ⟨n % 16, Nat.mod_lt _ (by omega), hc⟩

lemma parseHexNat_toHexDigits (n : Nat) : parseHexNat (toHexDigits n) = some n := by
  obtain ⟨c, cs, hcons⟩ := List.exists_cons_of_ne_nil (toHexDigits_ne_nil n)
  rw [hcons]
  show (c :: cs).foldl
      (fun acc c => acc.bind fun m => (hexDigitVal c).map fun d => m * 16 + d)
      (some 0) = some n
  rw [← hcons, foldl_hexStep_toHexDigits n 0]
  simp

lemma parseInt64Base16_toHexDigits (n : Nat) (hn : n ≤ 2 ^ 63 - 1) :
    parseInt64Base16 (toHexDigits n) = some (n : Int) := by
  obtain ⟨c, cs, hcons⟩ := List.exists_cons_of_ne_nil (toHexDigits_ne_nil n)
  obtain ⟨d, hd, hcd⟩ :=
    toHexDigits_mem n c (by rw [hcons]; exact List.mem_cons_self c cs)
  obtain ⟨hplus, hminus⟩ := hexDigitChar_not_sign d hd
  rw [hcons]
  show parseInt64Base16 (c :: cs) = some (n : Int)
  simp only [parseInt64Base16]
  have hc1 : ¬ c = '+' := by rw [hcd]; exact hplus
  have hc2 : ¬ c = '-' := by rw [hcd]; exact hminus
  rw [if_neg hc1, if_neg hc2, ← hcons, parseHexNat_toHexDigits n]
  simp only [Option.some_bind]
  rw [if_pos (by omega)]

/-- Claim C8: block-number round-trip — for every machine-representable
integer `n ≥ 0`, parsing (with the `strconv.ParseInt(s[2:], 16, 64)` used by
`ObserveChain`) the `fmt.Sprintf("0x%x", n)` formatting used by
`UpdateTransactions` yields `n` back. -/
theorem blockNumber_roundtrip (n : Int) (h0 : 0 ≤ n) (h1 : n ≤ 2 ^ 63 - 1) :
    parseBlockNumberTail (formatBlockNumber n) = some n := by
  have hneg : ¬ n < 0 := by omega
  rw [formatBlockNumber, if_neg hneg]
  unfold parseBlockNumberTail
  rw [String.data_append]
  show parseInt64Base16 (List.drop 2 ('0' :: 'x' :: toHexDigits n.toNat)) = some n
  rw [List.drop_succ_cons, List.drop_succ_cons, List.drop_zero]
  rw [parseInt64Base16_toHexDigits n.toNat (by omega)]
  congr 1
  exact Int.toNat_of_nonneg h0

/-- Witness for C8 at the repository's test block number `0x1b4` (436). -/
theorem blockNumber_roundtrip_witness :
    parseBlockNumberTail (formatBlockNumber 436) = some 436 :=
  blockNumber_roundtrip 436 (by omega) (by omega)

/-- Claim C2 evaluated at its failing inputs: `GetBlockNumber`'s validation
of the decoded result string PANICS (Go slice-bounds panic at
`blockNum[:2]`, line 150) on the empty and the one-character string, instead
of returning an error as the claim states; on a missing prefix or non-hex
digits it does return an error, and on a valid hex string it returns the
string unchanged. -/
theorem getBlockNumberValidate_edge_outcomes :
    getBlockNumberValidate "" = BlockNumOutcome.panicked ∧
    getBlockNumberValidate "0" = BlockNumOutcome.panicked ∧
    getBlockNumberValidate "0x1b4" = BlockNumOutcome.ok "0x1b4" ∧
    getBlockNumberValidate "qwe" = BlockNumOutcome.errored ∧
    getBlockNumberValidate "0xzz" = BlockNumOutcome.errored := by
  decide

/-- The seed-loop guard variable is untouched by an iteration: the parsed
value is bound to the shadowing inner variable of line 292, never to the
outer one. -/
lemma seedIter_blocknum (s : SeedState) (resp : Option String) :
    (seedIter s resp).blocknum = s.blocknum := by
  cases resp with
  | none => rfl
  | some bn =>
    simp only [seedIter]
    split <;> rfl

lemma foldl_seedIter_blocknum (resps : List (Option String)) :
    ∀ s : SeedState, (resps.foldl seedIter s).blocknum = s.blocknum := by
  induction resps with
  | nil => intro s; rfl
  | cons r rs ih => intro s; rw [List.foldl_cons, ih, seedIter_blocknum]

/-- Claim C1 evaluated on the code: the seed phase of `ObserveChain` never
terminates.  After any finite sequence of `GetBlockNumber` outcomes — in
particular after one that succeeds and parses, which does set the
watermark — the outer `blocknum` the loop guard `blocknum == 0` tests is
still `0`, because line 292's `:=` declares a new shadowing variable.  So
the loop keeps iterating in the seed phase and never reaches the polling
phase, contradicting the claim. -/
theorem seed_loop_never_exits :
    (∀ (e : EthereumObserver) (resps : List (Option String)),
       (seedRun e resps).blocknum = 0) ∧
    (seedRun e0 [some "0x1b4"]).observer.latestBlock = 436 ∧
    (seedRun e0 [some "0x1b4"]).blocknum = 0 := by
  refine ⟨fun e resps => ?_, by decide, by decide⟩
  exact foldl_seedIter_blocknum resps { blocknum := 0, observer := e }

/-! ### Watermark and gap-scan lemmas -/

lemma updateTransactions_some_latestBlock (e : EthereumObserver) (b : Int)
    (txs : List Transaction) :
    (UpdateTransactions e b (some txs)).latestBlock = max e.latestBlock b := by
  by_cases h : b > e.latestBlock <;>
    simp only [UpdateTransactions, updateLatestBlock, h, if_true, if_false] <;>
    omega

lemma runUpdates_some_latestBlock (calls : List (Int × List Transaction)) :
    ∀ e : EthereumObserver,
      (runUpdates e (calls.map fun c => (c.1, some c.2))).latestBlock =
        calls.foldl (fun w c => max w c.1) e.latestBlock := by
  induction calls with
  | nil => intro e; rfl
  | cons c cs ih =>
    intro e
    simp only [runUpdates, List.map_cons, List.foldl_cons]
    have h := ih (UpdateTransactions e c.1 (some c.2))
    simp only [runUpdates] at h
    rw [h, updateTransactions_some_latestBlock]

/-- Claim C5: the watermark is monotonically non-decreasing — no
`UpdateTransactions` call (and no `updateLatestBlock` call) ever lowers it;
a sequence of calls whose fetches all succeed ends with the watermark equal
to the running maximum of the block numbers and the initial watermark; and a
successful call with a block number at most the current watermark leaves it
unchanged. -/
theorem watermark_monotone :
    (∀ (e : EthereumObserver) (b : Int) (fetch : Option (List Transaction)),
       e.latestBlock ≤ (UpdateTransactions e b fetch).latestBlock) ∧
    (∀ (e : EthereumObserver) (b : Int),
       e.latestBlock ≤ (updateLatestBlock e b).2.latestBlock) ∧
    (∀ (e : EthereumObserver) (calls : List (Int × List Transaction)),
       (runUpdates e (calls.map fun c => (c.1, some c.2))).latestBlock =
         calls.foldl (fun w c => max w c.1) e.latestBlock) ∧
    (∀ (e : EthereumObserver) (b : Int) (txs : List Transaction),
       b ≤ e.latestBlock →
       (UpdateTransactions e b (some txs)).latestBlock = e.latestBlock) := by
  refine ⟨?_, ?_, ?_, ?_⟩
  · intro e b fetch
    cases fetch with
    | none => exact le_refl _
    | some txs =>
      rw [updateTransactions_some_latestBlock]
      exact le_max_left _ _
  · intro e b
    by_cases h : b > e.latestBlock
    · simp only [updateLatestBlock, h, if_true]
      omega
    · simp only [updateLatestBlock, h, if_false]
      exact le_refl _
  · intro e calls
    exact runUpdates_some_latestBlock calls e
  · intro e b txs hb
    rw [updateTransactions_some_latestBlock]
    omega

/-- Witness for C5: a successful update for block 3 while the watermark is 5
leaves the watermark at 5. -/
theorem watermark_monotone_witness :
    (3 : Int) ≤ ({ e0 with latestBlock := 5 } : EthereumObserver).latestBlock ∧
    (UpdateTransactions { e0 with latestBlock := 5 } 3 (some [])).latestBlock =
      ({ e0 with latestBlock := 5 } : EthereumObserver).latestBlock :=
  ⟨by decide, watermark_monotone.2.2.2 { e0 with latestBlock := 5 } 3 [] (by decide)⟩

lemma mem_gapBlocks (w h n : Int) :
    n ∈ gapBlocks w h ↔ w + 1 ≤ n ∧ n ≤ h - 1 := by
  simp only [gapBlocks, List.mem_map, List.mem_range]
  constructor
  · rintro ⟨k, hk, rfl⟩
    omega
  · rintro ⟨h1, h2⟩
    exact ⟨(n - (w + 1)).toNat, by omega, by omega⟩

lemma foldl_addBlockToRead_mem (l : List Int) :
    ∀ (e : EthereumObserver) (n : Int),
      n ∈ (l.foldl addBlockToRead e).blocksToRead ↔
        n ∈ e.blocksToRead ∨ n ∈ l := by
  induction l with
  | nil => intro e n; simp
  | cons x xs ih =>
    intro e n
    rw [List.foldl_cons, ih]
    simp only [addBlockToRead, Finset.mem_insert, List.mem_cons]
    tauto

/-- Claim C6: the catch-up gap scan of a polling iteration that observes
head `h` while the watermark is `w` makes the pending set the union of the
prior pending set with exactly the numbers `n` satisfying
`w + 1 ≤ n ≤ h - 1`; the head `h` itself is never inserted by that scan; and
inserting an already-pending number leaves the pending set unchanged. -/
theorem gap_scan_characterization :
    (∀ (e : EthereumObserver) (h n : Int),
       n ∈ (addGapBlocks e h).blocksToRead ↔
         n ∈ e.blocksToRead ∨ (e.latestBlock + 1 ≤ n ∧ n ≤ h - 1)) ∧
    (∀ (e : EthereumObserver) (h : Int),
       h ∈ (addGapBlocks e h).blocksToRead ↔ h ∈ e.blocksToRead) ∧
    (∀ (e : EthereumObserver) (n : Int),
       n ∈ e.blocksToRead →
       (addBlockToRead e n).blocksToRead = e.blocksToRead) := by
  have hmain : ∀ (e : EthereumObserver) (h n : Int),
      n ∈ (addGapBlocks e h).blocksToRead ↔
        n ∈ e.blocksToRead ∨ (e.latestBlock + 1 ≤ n ∧ n ≤ h - 1) := by
    intro e h n
    rw [addGapBlocks, foldl_addBlockToRead_mem, mem_gapBlocks]
  refine ⟨hmain, ?_, ?_⟩
  · intro e h
    rw [hmain]
    constructor
    · rintro (hp | hrange)
      · exact hp
      · omega
    · exact Or.inl
  · intro e n hn
    show insert n e.blocksToRead = e.blocksToRead
    exact Finset.insert_eq_self.mpr hn

/-- Witness for C6: re-inserting the already-pending block 7 leaves the
pending set unchanged. -/
theorem gap_scan_characterization_witness :
    (7 : Int) ∈ (addBlockToRead e0 7).blocksToRead ∧
    (addBlockToRead (addBlockToRead e0 7) 7).blocksToRead =
      (addBlockToRead e0 7).blocksToRead :=
  ⟨by decide, gap_scan_characterization.2.2 (addBlockToRead e0 7) 7 (by decide)⟩

/-! ### Address-filter lemmas -/

lemma collect_step (e : EthereumObserver) (m : String → List Transaction)
    (tx : Transaction) (addr : String) :
    ([tx.From, tx.To].foldl
      (fun m address =>
        if address ∈ e.subscribedAddress then
          fun a => if a = address then m a ++ [tx] else m a
        else m)
      m) addr = m addr ++ txContribution e addr tx := by
  simp only [List.foldl_cons, List.foldl_nil, txContribution]
  by_cases h1 : tx.From ∈ e.subscribedAddress <;>
  by_cases h2 : tx.To ∈ e.subscribedAddress <;>
  by_cases h3 : addr = tx.From <;>
  by_cases h4 : addr = tx.To <;>
  by_cases h5 : tx.From = tx.To <;>
  simp_all

lemma collect_go (e : EthereumObserver) (addr : String) :
    ∀ (txs : List Transaction) (m : String → List Transaction),
      (txs.foldl
        (fun m transaction =>
          [transaction.From, transaction.To].foldl
            (fun m address =>
              if address ∈ e.subscribedAddress then
                fun a => if a = address then m a ++ [transaction] else m a
              else m)
            m)
        m) addr =
      m addr ++ txs.foldr (fun tx acc => txContribution e addr tx ++ acc) [] := by
  intro txs
  induction txs with
  | nil => intro m; simp
  | cons tx txs ih =>
    intro m
    rw [List.foldl_cons, ih, List.foldr_cons, collect_step]
    simp [List.append_assoc]

lemma collect_eq (e : EthereumObserver) (txs : List Transaction) (addr : String) :
    collectSubscribedAddresses e txs addr =
      txs.foldr (fun tx acc => txContribution e addr tx ++ acc) [] := by
  unfold collectSubscribedAddresses
  rw [collect_go]
  simp

lemma collect_eq_flatMap (e : EthereumObserver) (txs : List Transaction)
    (addr : String) :
    collectSubscribedAddresses e txs addr =
      txs.flatMap (txContribution e addr) := by
  rw [collect_eq]
  induction txs with
  | nil => rfl
  | cons tx txs ih => rw [List.foldr_cons, ih, List.flatMap_cons]

lemma txContribution_count (e : EthereumObserver) (addr : String)
    (tx t : Transaction) :
    (txContribution e addr tx).count t =
      (if tx = t then 1 else 0) *
        ((if addr = t.From ∧ t.From ∈ e.subscribedAddress then 1 else 0) +
         (if addr = t.To ∧ t.To ∈ e.subscribedAddress then 1 else 0)) := by
  have hif : ∀ (P : Prop) (inst : Decidable P),
      (if P then [tx] else []).count t =
        if P then (if tx = t then 1 else 0) else 0 := by
    intro P inst
    split <;> simp [List.count_cons]
  by_cases htt : tx = t
  · subst htt
    unfold txContribution
    rw [List.count_append, hif _ _, hif _ _]
    simp
  · unfold txContribution
    rw [List.count_append, hif _ _, hif _ _]
    simp [htt]

lemma collect_count (e : EthereumObserver) (txs : List Transaction)
    (addr : String) (t : Transaction) :
    (collectSubscribedAddresses e txs addr).count t =
      txs.count t *
        ((if addr = t.From ∧ t.From ∈ e.subscribedAddress then 1 else 0) +
         (if addr = t.To ∧ t.To ∈ e.subscribedAddress then 1 else 0)) := by
  rw [collect_eq_flatMap]
  induction txs with
  | nil => simp
  | cons tx txs ih =>
    rw [List.flatMap_cons, List.count_append, ih, txContribution_count,
      List.count_cons]
    by_cases htt : tx = t
    · simp [htt]
      ring
    · simp [htt]

lemma collect_ne_nil_iff (e : EthereumObserver) (txs : List Transaction)
    (addr : String) :
    collectSubscribedAddresses e txs addr ≠ [] ↔
      ∃ tx ∈ txs, addr ∈ e.subscribedAddress ∧
        (addr = tx.From ∨ addr = tx.To) := by
  rw [collect_eq_flatMap, ne_eq, List.flatMap_eq_nil_iff]
  push_neg
  constructor
  · rintro ⟨tx, htx, hne⟩
    refine ⟨tx, htx, ?_⟩
    unfold txContribution at hne
    by_cases c1 : addr = tx.From ∧ tx.From ∈ e.subscribedAddress
    · exact ⟨c1.1 ▸ c1.2, Or.inl c1.1⟩
    · by_cases c2 : addr = tx.To ∧ tx.To ∈ e.subscribedAddress
      · exact ⟨c2.1 ▸ c2.2, Or.inr c2.1⟩
      · simp [c1, c2] at hne
  · rintro ⟨tx, htx, hsub, hor⟩
    refine ⟨tx, htx, ?_⟩
    unfold txContribution
    rcases hor with h | h
    · have hc : addr = tx.From ∧ tx.From ∈ e.subscribedAddress := ⟨h, h ▸ hsub⟩
      simp [hc]
    · have hc : addr = tx.To ∧ tx.To ∈ e.subscribedAddress := ⟨h, h ▸ hsub⟩
      simp [hc]

/-- Claim C3, counterexample: a transaction whose sender equals its receiver
(both the subscribed address `"0xa"`) appears TWICE under that key, not
exactly once as the claim states — the inner loop of
`collectSubscribedAddresses` appends it for the `From` position and again
for the `To` position. -/
theorem collect_self_transfer_twice :
    collectSubscribedAddresses eSelf [txSelf] "0xa" = [txSelf, txSelf] ∧
    ¬ (collectSubscribedAddresses eSelf [txSelf] "0xa").count txSelf = 1 := by
  decide

/-- Claim C3 as amended: for every transaction list and subscription set,
each address's collected list is the in-scan-order concatenation of
per-transaction contributions (the sender position, then the receiver
position) — so a transaction whose distinct sender and receiver are both
subscribed appears once under each of the two keys, while one whose sender
equals its receiver appears twice under that single key (the multiplicity
equation below); and an address is present (list nonempty) exactly when
some transaction matches it. -/
theorem collectSubscribedAddresses_characterization
    (e : EthereumObserver) (txs : List Transaction) (addr : String) :
    collectSubscribedAddresses e txs addr =
      txs.flatMap (txContribution e addr) ∧
    (∀ t : Transaction,
      (collectSubscribedAddresses e txs addr).count t =
        txs.count t *
          ((if addr = t.From ∧ t.From ∈ e.subscribedAddress then 1 else 0) +
           (if addr = t.To ∧ t.To ∈ e.subscribedAddress then 1 else 0))) ∧
    (collectSubscribedAddresses e txs addr ≠ [] ↔
      ∃ tx ∈ txs, addr ∈ e.subscribedAddress ∧
        (addr = tx.From ∨ addr = tx.To)) :=
  ⟨collect_eq_flatMap e txs addr, fun t => collect_count e txs addr t,
   collect_ne_nil_iff e txs addr⟩

/-- Claim C9, counterexample: not every access to the lock-guarded fields
goes through the lock — in particular `GetCurrentBlock` returns the
watermark with NO lock held (its body, lines 262-264, contains no
`e.mux.Lock()`), directly contradicting "currentBlock() returns watermark
under lock". -/
theorem observer_access_unlocked_read :
    GetCurrentBlockAccesses =
      [{ kind := AccessKind.read, field := ObserverField.watermark,
         underLock := false }] ∧
    ¬ ∀ a ∈ allObserverAccesses, a.underLock = true := by
  decide

/-- Claim C9 as amended: every WRITE to the watermark, the pending set and
the subscription set happens under the single exclusive lock, but the reads
of `GetCurrentBlock` (watermark), `collectSubscribedAddresses`
(subscriptions) and the `ObserveChain` loop body (watermark and pending) are
performed without the lock. -/
theorem observer_writes_under_lock :
    (allObserverAccesses.all fun a =>
      !(a.kind == AccessKind.write) || a.underLock) = true ∧
    (GetCurrentBlockAccesses.all fun a => !a.underLock) = true ∧
    (collectSubscribedAddressesAccesses.all fun a => !a.underLock) = true ∧
    (ObserveChainAccesses.all fun a => !a.underLock) = true := by
  decide
